import Mathlib

/-!
Verification of `src/zk.py` (zk-account-soundness): a script that fetches
balance and transaction count for a list of addresses from two JSON-RPC
endpoints, diffs the two per-address state maps, prints a report and exits
with a status code.

The embedding models Python dicts as association lists with Python's
insert/overwrite semantics, RPC calls as pure oracle functions returning
`Except String Int` (an exception is `.error msg` with `msg = str(e)`),
and printed lines as a trace of `OutputLine` values.
-/

namespace ZK

/-- One sub-call of the per-address fetch (`fetch_balance` / `fetch_tx_count`). -/
inductive SubCall
  | balance
  | txCount
deriving DecidableEq, Repr

/-- An RPC client (`web3.Web3` as used by the script): two lookups keyed by
address and block, each able to fail with a stringified exception. -/
structure Client where
  get_balance : String → String → Except String Int
  get_transaction_count : String → String → Except String Int

/-- A per-address record: the dict `{"balance_wei": bal, "tx_count": txs}`
or the dict `{"error": msg}` from `analyze_accounts`.  Equality of these
values is Python dict equality, which the derived structural equality
matches exactly. -/
inductive AccountRecord
  | ok (balance_wei : Int) (tx_count : Int)
  | err (msg : String)
deriving DecidableEq, Repr

/-- A Python dict keyed by address, in insertion order. -/
abbrev StateMap := List (String × AccountRecord)

/-- Python `d.get(k)` / `k in d` lookup on an insertion-ordered dict. -/
def dictGet {V : Type} : List (String × V) → String → Option V
  | [], _ => none
  | (k', v) :: rest, k => if k' = k then some v else dictGet rest k

/-- Python `d[k] = v`: overwrite in place if the key exists, else append. -/
def dictInsert {V : Type} : List (String × V) → String → V → List (String × V)
  | [], k, v => [(k, v)]
  | (k', v') :: rest, k, v =>
    if k' = k then (k, v) :: rest else (k', v') :: dictInsert rest k v

/-- The key list of a dict, in insertion order (Python `d.keys()`). -/
def dictKeys {V : Type} (m : List (String × V)) : List String :=
  m.map Prod.fst

/-- First-occurrence deduplication: the key order a Python dict ends up with
after inserting every element of the list in order. -/
def pyDedup : List String → List String
  | [] => []
  | x :: xs => x :: (pyDedup xs).filter (fun y => y ≠ x)

/-- A printed line of the script, one constructor per `print` statement. -/
inductive OutputLine
  | fetching (addr : String)
  | invalidRpc (rpc : String)
  | invalidAddress (a : String)
  | connectFailed
  | header
  | rpcA (url : String)
  | rpcB (url : String)
  | blocks (block_a block_b : String)
  | accounts (n : Nat)
  | timestamp (ts : String)
  | resultsHeader
  | resultLine (addr : String) (bal_a bal_b tx_a tx_b : Option Int) (isMatch : Bool)
  | allMatch
  | differCount (n : Nat)
  | jsonReport (rpc_a rpc_b block_a block_b : String) (addresses : List String)
      (state_a state_b : StateMap) (diffs : List String) (ts : String)
      (elapsed : Int) (ok : Bool)
deriving DecidableEq, Repr

/-- The body of the `try` block in `analyze_accounts` for one address:
`fetch_balance` first, then `fetch_tx_count`; an exception aborts the rest
of the block and lands in `except`.  Returns the record stored for the
address together with the list of sub-calls that were actually attempted. -/
def fetchPair (w3 : Client) (addr : String) (block : String) :
    AccountRecord × List SubCall :=
  match w3.get_balance addr block with
  | .error e => (.err e, [.balance])
  | .ok bal =>
    match w3.get_transaction_count addr block with
    | .error e => (.err e, [.balance, .txCount])
    | .ok txs => (.ok bal txs, [.balance, .txCount])

/-- The record `analyze_accounts` stores for one address. -/
def fetchRecord (w3 : Client) (addr : String) (block : String) : AccountRecord :=
  (fetchPair w3 addr block).1

/-- The loop of `analyze_accounts`: build up the results dict over the
address list, printing a progress line before each fetch. -/
def analyzeGo (w3 : Client) (block : String) (acc : StateMap) :
    List String → StateMap × List OutputLine
  | [] => (acc, [])
  | addr :: rest =>
    let r := fetchRecord w3 addr block
    let step := analyzeGo w3 block (dictInsert acc addr r) rest
    (step.1, OutputLine.fetching addr :: step.2)

/-- `analyze_accounts(w3, addresses, block)`: the results dict plus the
progress lines printed along the way. -/
def analyze_accounts (w3 : Client) (addresses : List String) (block : String) :
    StateMap × List OutputLine :=
  analyzeGo w3 block [] addresses

/-- Python string comparison `x <= y`: code-point lexicographic order on the
character sequences, the order `sorted` uses.  Stated on `.data` so that it
is kernel-computable; it coincides with the `String` order (`addrLe_iff`). -/
def addrLe (x y : String) : Prop := x.data ≤ y.data

instance : DecidableRel addrLe := fun x y =>
  inferInstanceAs (Decidable (x.data ≤ y.data))

instance : IsTotal String addrLe :=
  ⟨fun x y => by
    rcases le_total x y with h | h
    · exact Or.inl (String.le_iff_toList_le.mp h)
    · exact Or.inr (String.le_iff_toList_le.mp h)⟩

instance : IsTrans String addrLe :=
  ⟨fun _ _ _ hxy hyz =>
    String.le_iff_toList_le.mp
      (le_trans (String.le_iff_toList_le.mpr hxy)
        (String.le_iff_toList_le.mpr hyz))⟩

/-- `compare_states(a, b)`: iterate the sorted union of the two key sets and
collect the addresses where `a.get(addr, {}) != b.get(addr, {})`.  A missing
key is `{}`, equal only to another missing key; `dictGet` renders `{}` as
`none`, which likewise equals only `none`. -/
def compare_states (a b : StateMap) : List String :=
  (List.insertionSort addrLe (pyDedup (dictKeys a ++ dictKeys b))).filter
    (fun addr => dictGet a addr ≠ dictGet b addr)

/-- `sys.exit(0 if not diffs else 2)` on line 123. -/
def exit_code (diffs : List String) : Nat :=
  if diffs.isEmpty then 0 else 2

/-- The parsed CLI arguments (`parse_args`), after argparse has applied
defaults; `--address` is repeatable so it is a list. -/
structure Args where
  rpc_a : String
  rpc_b : String
  address : List String
  block_a : String
  block_b : String
  json : Bool

/-- The external world `main` consults: `Web3.is_address`,
`Web3.to_checksum_address`, the two constructed clients, the two
`is_connected()` probes, the two `datetime.utcnow()` readings and the
rounded elapsed-seconds value. -/
structure Env where
  is_address : String → Bool
  to_checksum : String → String
  client_a : Client
  client_b : Client
  connected_a : Bool
  connected_b : Bool
  ts1 : String
  ts2 : String
  elapsed : Int

/-- `str(rpc).startswith(("http://", "https://"))`: prefix test on the
character sequence. -/
def startsHttp (s : String) : Bool :=
  "http://".data.isPrefixOf s.data || "https://".data.isPrefixOf s.data

/-- The URL loop of `main` (lines 58-61): the first URL of
`[args.rpc_a, args.rpc_b]` failing the scheme check, if any. -/
def checkRpcs (rpc_a rpc_b : String) : Option OutputLine :=
  if ¬ startsHttp rpc_a then some (.invalidRpc rpc_a)
  else if ¬ startsHttp rpc_b then some (.invalidRpc rpc_b)
  else none

/-- The address loop of `main` (lines 63-68): checksums every address, or
stops at the first one failing `Web3.is_address`. -/
def checkAddresses (isAddr : String → Bool) (toCheck : String → String) :
    List String → Except String (List String)
  | [] => .ok []
  | a :: rest =>
    if isAddr a then
      match checkAddresses isAddr toCheck rest with
      | .ok addrs => .ok (toCheck a :: addrs)
      | .error bad => .error bad
    else .error a

/-- The `"balance_wei"` field shown in the report: `a.get("balance_wei",
"ERR")` where `a` is `state.get(addr, {})`; `none` renders as `"ERR"`. -/
def balField : Option AccountRecord → Option Int
  | some (.ok b _) => some b
  | _ => none

/-- The `"tx_count"` field shown in the report, `none` rendering as
`"ERR"`. -/
def txField : Option AccountRecord → Option Int
  | some (.ok _ t) => some t
  | _ => none

/-- One line of the results section (lines 92-100): fields from each side
and the `a == b` MATCH/DIFF marker. -/
def resultLineFor (state_a state_b : StateMap) (addr : String) : OutputLine :=
  let a := dictGet state_a addr
  let b := dictGet state_b addr
  .resultLine addr (balField a) (balField b) (txField a) (txField b)
    (decide (a = b))

/-- Lines 77-123 of `main`: the pipeline run once validation and the
connectivity probe have passed — header prints, the two fetch phases, the
diff, the per-address report, the summary, the optional JSON blob, and the
final exit code. -/
def runComparison (args : Args) (env : Env) (addrs : List String) :
    Nat × List OutputLine :=
  let fa := analyze_accounts env.client_a addrs args.block_a
  let fb := analyze_accounts env.client_b addrs args.block_b
  let diffs := compare_states fa.1 fb.1
  let report := addrs.map (resultLineFor fa.1 fb.1)
  let summary :=
    if diffs.isEmpty then [OutputLine.allMatch]
    else [OutputLine.differCount diffs.length]
  let jsonOut :=
    if args.json then
      [OutputLine.jsonReport args.rpc_a args.rpc_b args.block_a
        args.block_b addrs fa.1 fb.1 diffs env.ts2 env.elapsed
        diffs.isEmpty]
    else []
  (exit_code diffs,
    [OutputLine.header, OutputLine.rpcA args.rpc_a,
     OutputLine.rpcB args.rpc_b,
     OutputLine.blocks args.block_a args.block_b,
     OutputLine.accounts addrs.length, OutputLine.timestamp env.ts1]
    ++ fa.2 ++ fb.2 ++ [OutputLine.resultsHeader] ++ report
    ++ summary ++ jsonOut)

/-- `main()`: exit code and the full ordered print trace. -/
def main (args : Args) (env : Env) : Nat × List OutputLine :=
  match checkRpcs args.rpc_a args.rpc_b with
  | some line => (1, [line])
  | none =>
    match checkAddresses env.is_address env.to_checksum args.address with
    | .error a => (1, [.invalidAddress a])
    | .ok addrs =>
      if !env.connected_a || !env.connected_b then (1, [.connectFailed])
      else runComparison args env addrs

/-- The addresses of the result lines of a print trace, in print order. -/
def resultAddrs (out : List OutputLine) : List String :=
  out.filterMap fun line =>
    match line with
    | .resultLine addr _ _ _ _ _ => some addr
    | _ => none

/-- A client whose two lookups always succeed. -/
def trivialClient : Client where
  get_balance := fun _ _ => .ok 0
  get_transaction_count := fun _ _ => .ok 0

/-- A client whose balance lookup always raises. -/
def failBalClient : Client where
  get_balance := fun _ _ => .error "balance boom"
  get_transaction_count := fun _ _ => .ok 7

/-- A client whose balance lookup raises for address `"0xB"` only. -/
def mixedClient : Client where
  get_balance := fun addr _ => if addr = "0xB" then .error "down" else .ok 5
  get_transaction_count := fun _ _ => .ok 2

/-- An environment where every pre-flight check passes and both clients
always succeed. -/
def envOk : Env where
  is_address := fun _ => true
  to_checksum := fun a => a
  client_a := trivialClient
  client_b := trivialClient
  connected_a := true
  connected_b := true
  ts1 := "t1"
  ts2 := "t2"
  elapsed := 0

/-- Arguments with a malformed primary RPC URL (`--rpc-a "ftp://x"`). -/
def argsFtp : Args where
  rpc_a := "ftp://x"
  rpc_b := "https://node-b"
  address := ["0xA"]
  block_a := "latest"
  block_b := "latest"
  json := false

/-- Well-formed arguments for two addresses. -/
def argsOk : Args where
  rpc_a := "https://node-a"
  rpc_b := "https://node-b"
  address := ["0xA", "0xB"]
  block_a := "latest"
  block_b := "latest"
  json := false

theorem dictGet_dictInsert {V : Type} (m : List (String × V)) (k k' : String)
    (v : V) :
    dictGet (dictInsert m k v) k' = if k = k' then some v else dictGet m k' := by
  induction m with
  | nil => simp [dictInsert, dictGet]
  | cons p rest ih =>
    obtain ⟨k0, v0⟩ := p
    by_cases h0 : k0 = k
    · subst h0
      by_cases h' : k0 = k' <;> simp [dictInsert, dictGet, h']
    · by_cases h' : k0 = k'
      · subst h'
        simp [dictInsert, dictGet, h0, Ne.symm h0]
      · simp [dictInsert, dictGet, h0, h', ih]

theorem dictKeys_nil {V : Type} : dictKeys ([] : List (String × V)) = [] := rfl

theorem dictKeys_cons {V : Type} (k : String) (v : V) (m : List (String × V)) :
    dictKeys ((k, v) :: m) = k :: dictKeys m := rfl

theorem dictGet_eq_none_iff {V : Type} (m : List (String × V)) (k : String) :
    dictGet m k = none ↔ k ∉ dictKeys m := by
  induction m with
  | nil => simp [dictGet, dictKeys_nil]
  | cons p rest ih =>
    obtain ⟨k0, v0⟩ := p
    by_cases h0 : k0 = k
    · subst h0
      simp [dictGet, dictKeys_cons]
    · simp [dictGet, dictKeys_cons, h0, Ne.symm h0, ih]

theorem mem_dictKeys_of_dictGet {V : Type} {m : List (String × V)} {k : String}
    {v : V} (h : dictGet m k = some v) : k ∈ dictKeys m := by
  by_contra hk
  rw [← dictGet_eq_none_iff] at hk
  rw [h] at hk
  exact Option.noConfusion hk

theorem dictKeys_dictInsert {V : Type} (m : List (String × V)) (k : String)
    (v : V) :
    dictKeys (dictInsert m k v) =
      if k ∈ dictKeys m then dictKeys m else dictKeys m ++ [k] := by
  induction m with
  | nil => simp [dictInsert, dictKeys_nil, dictKeys_cons]
  | cons p rest ih =>
    obtain ⟨k0, v0⟩ := p
    by_cases h0 : k0 = k
    · subst h0
      simp [dictInsert, dictKeys_cons]
    · by_cases hm : k ∈ dictKeys rest <;>
        simp [dictInsert, dictKeys_cons, h0, Ne.symm h0, hm, ih]

theorem mem_pyDedup (l : List String) (y : String) : y ∈ pyDedup l ↔ y ∈ l := by
  induction l with
  | nil => simp [pyDedup]
  | cons x xs ih =>
    by_cases hy : y = x
    · subst hy
      simp [pyDedup]
    · simp [pyDedup, List.mem_filter, hy, ih]

theorem pyDedup_nodup (l : List String) : (pyDedup l).Nodup := by
  induction l with
  | nil => simp [pyDedup]
  | cons x xs ih =>
    refine List.Nodup.cons ?_ (List.Nodup.filter _ ih)
    intro hx
    rcases List.mem_filter.mp hx with ⟨_, hne⟩
    simp at hne

theorem pyDedup_eq_self {l : List String} (h : l.Nodup) : pyDedup l = l := by
  induction l with
  | nil => rfl
  | cons x xs ih =>
    rcases List.nodup_cons.mp h with ⟨hx, hxs⟩
    have hd := ih hxs
    simp only [pyDedup, hd]
    rw [List.filter_eq_self.mpr]
    intro a ha
    simp only [ne_eq, decide_eq_true_eq]
    intro hax
    exact hx (hax ▸ ha)

theorem dictGet_analyzeGo (w3 : Client) (block : String) (l : List String)
    (acc : StateMap) (k : String) :
    dictGet (analyzeGo w3 block acc l).1 k =
      if k ∈ l then some (fetchRecord w3 k block) else dictGet acc k := by
  induction l generalizing acc with
  | nil => simp [analyzeGo]
  | cons x xs ih =>
    simp only [analyzeGo]
    rw [ih, dictGet_dictInsert]
    by_cases hx : x = k
    · subst hx
      by_cases hm : x ∈ xs <;> simp [hm]
    · by_cases hm : k ∈ xs <;> simp [hm, hx, List.mem_cons, Ne.symm hx]

theorem snd_analyzeGo (w3 : Client) (block : String) (l : List String)
    (acc : StateMap) :
    (analyzeGo w3 block acc l).2 = l.map OutputLine.fetching := by
  induction l generalizing acc with
  | nil => rfl
  | cons x xs ih => simp [analyzeGo, ih]

theorem dictKeys_analyzeGo (w3 : Client) (block : String) (l : List String)
    (acc : StateMap) :
    dictKeys (analyzeGo w3 block acc l).1 =
      dictKeys acc ++ (pyDedup l).filter (fun a => decide (a ∉ dictKeys acc)) := by
  induction l generalizing acc with
  | nil => simp [analyzeGo, pyDedup]
  | cons x xs ih =>
    simp only [analyzeGo]
    rw [ih, dictKeys_dictInsert]
    have hstep : pyDedup (x :: xs) =
        x :: (pyDedup xs).filter (fun y => y ≠ x) := rfl
    by_cases hx : x ∈ dictKeys acc
    · rw [if_pos hx, hstep, List.filter_cons]
      have hpx : ¬ ((fun a => decide (a ∉ dictKeys acc)) x = true) := by
        simp [hx]
      rw [if_neg hpx, List.filter_filter]
      congr 1
      apply List.filter_congr
      intro a _
      by_cases ha : a ∈ dictKeys acc
      · simp [ha]
      · have hax : a ≠ x := fun h => ha (h ▸ hx)
        simp [ha, hax]
    · rw [if_neg hx, hstep, List.filter_cons]
      have hpx : (fun a => decide (a ∉ dictKeys acc)) x = true := by
        simp [hx]
      rw [if_pos hpx, List.filter_filter, List.append_assoc,
        List.singleton_append]
      congr 1
      congr 1
      apply List.filter_congr
      intro a _
      by_cases hax : a = x
      · subst hax
        simp [List.mem_append]
      · by_cases ha : a ∈ dictKeys acc <;>
          simp [ha, hax, List.mem_append]

theorem dictKeys_analyze_accounts (w3 : Client) (addresses : List String)
    (block : String) :
    dictKeys (analyze_accounts w3 addresses block).1 = pyDedup addresses := by
  rw [analyze_accounts, dictKeys_analyzeGo]
  simp [dictKeys_nil]

theorem dictGet_analyze_accounts (w3 : Client) (addresses : List String)
    (block : String) (k : String) :
    dictGet (analyze_accounts w3 addresses block).1 k =
      if k ∈ addresses then some (fetchRecord w3 k block) else none := by
  rw [analyze_accounts, dictGet_analyzeGo]
  rfl

theorem mem_compare_states (a b : StateMap) (addr : String) :
    addr ∈ compare_states a b ↔
      (addr ∈ dictKeys a ∨ addr ∈ dictKeys b) ∧
        dictGet a addr ≠ dictGet b addr := by
  unfold compare_states
  rw [List.mem_filter, List.mem_insertionSort, mem_pyDedup, List.mem_append]
  simp

theorem compare_states_sorted_le (a b : StateMap) :
    (compare_states a b).Sorted (fun x y : String => x ≤ y) := by
  have h : (compare_states a b).Sorted addrLe := by
    unfold compare_states
    exact List.Pairwise.sublist (List.filter_sublist _)
      (List.sorted_insertionSort addrLe _)
  exact h.imp fun hxy => String.le_iff_toList_le.mpr hxy

theorem compare_states_nodup (a b : StateMap) :
    (compare_states a b).Nodup := by
  unfold compare_states
  apply List.Nodup.sublist (List.filter_sublist _)
  exact ((List.perm_insertionSort _ _).nodup_iff).mpr
    (pyDedup_nodup (dictKeys a ++ dictKeys b))

theorem compare_states_sorted_lt (a b : StateMap) :
    (compare_states a b).Sorted (fun x y : String => x < y) :=
  List.Sorted.lt_of_le (compare_states_sorted_le a b) (compare_states_nodup a b)

/-- C1 counterexample: both state maps hold an `Err` record with the same
message at `"0xA"`, yet `compare_states` returns the empty diff list, so
`"0xA"` is not in the diff set — the claim that two `Err` records are never
equal fails, because Python dict equality compares the `"error"` values. -/
theorem C1_counterexample :
    dictGet [("0xA", AccountRecord.err "boom")] "0xA" =
      some (AccountRecord.err "boom") ∧
    compare_states [("0xA", AccountRecord.err "boom")]
      [("0xA", AccountRecord.err "boom")] = [] ∧
    "0xA" ∉ compare_states [("0xA", AccountRecord.err "boom")]
      [("0xA", AccountRecord.err "boom")] := by
  refine ⟨rfl, by decide, by decide⟩

/-- C1 (amended): for every address at which both state maps hold an `Err`
record, the address is in the reconciler's diff set if and only if the two
error messages differ; two `Err` records with identical messages compare
equal and the address is reported as a match. -/
theorem C1_both_err_diff_iff (a b : StateMap) (addr m1 m2 : String)
    (ha : dictGet a addr = some (AccountRecord.err m1))
    (hb : dictGet b addr = some (AccountRecord.err m2)) :
    addr ∈ compare_states a b ↔ m1 ≠ m2 := by
  rw [mem_compare_states, ha, hb]
  constructor
  · rintro ⟨-, hne⟩ heq
    exact hne (by rw [heq])
  · intro hne
    exact ⟨Or.inl (mem_dictKeys_of_dictGet ha), by simp [hne]⟩

/-- C1 witness: differing messages put the address in the diff set,
identical messages keep it out. -/
theorem C1_both_err_diff_iff_witness :
    ("0xA" ∈ compare_states [("0xA", AccountRecord.err "t1")]
        [("0xA", AccountRecord.err "t2")]) ∧
    ¬ ("0xA" ∈ compare_states [("0xA", AccountRecord.err "boom")]
        [("0xA", AccountRecord.err "boom")]) :=
  ⟨(C1_both_err_diff_iff [("0xA", AccountRecord.err "t1")]
      [("0xA", AccountRecord.err "t2")] "0xA" "t1" "t2" rfl rfl).mpr
        (by decide),
   fun h =>
    ((C1_both_err_diff_iff [("0xA", AccountRecord.err "boom")]
      [("0xA", AccountRecord.err "boom")] "0xA" "boom" "boom" rfl rfl).mp h)
        rfl⟩

/-- C2: for every address where one state map holds an `Ok` record and the
other holds an `Err` record, the address is in the reconciler's diff set,
whatever the error message is. -/
theorem C2_ok_vs_err_in_diffs (a b : StateMap) (addr : String)
    (bal n : Int) (m : String)
    (h : (dictGet a addr = some (AccountRecord.ok bal n) ∧
          dictGet b addr = some (AccountRecord.err m)) ∨
         (dictGet a addr = some (AccountRecord.err m) ∧
          dictGet b addr = some (AccountRecord.ok bal n))) :
    addr ∈ compare_states a b := by
  rw [mem_compare_states]
  rcases h with ⟨ha, hb⟩ | ⟨ha, hb⟩
  · exact ⟨Or.inl (mem_dictKeys_of_dictGet ha), by rw [ha, hb]; simp⟩
  · exact ⟨Or.inl (mem_dictKeys_of_dictGet ha), by rw [ha, hb]; simp⟩

/-- C2 witness: `Ok` on side A versus `Err` on side B at `"0xA"`. -/
theorem C2_ok_vs_err_in_diffs_witness :
    "0xA" ∈ compare_states [("0xA", AccountRecord.ok 100 5)]
      [("0xA", AccountRecord.err "down")] :=
  C2_ok_vs_err_in_diffs _ _ "0xA" 100 5 "down" (Or.inl ⟨rfl, rfl⟩)

/-- C3: the reconciler's output is exactly the addresses of the union of the
two key sets whose looked-up entries differ, strictly ascending by address
string; an address present on exactly one side is always a difference, and
an address absent from both sides is never reported. -/
theorem C3_reconcile_exact (a b : StateMap) :
    ((compare_states a b).Sorted (fun x y : String => x < y)) ∧
    (∀ addr, addr ∈ compare_states a b ↔
      ((addr ∈ dictKeys a ∨ addr ∈ dictKeys b) ∧
        dictGet a addr ≠ dictGet b addr)) ∧
    (∀ addr r, dictGet a addr = none →
      dictGet b addr = some r → addr ∈ compare_states a b) ∧
    (∀ addr r, dictGet a addr = some r →
      dictGet b addr = none → addr ∈ compare_states a b) ∧
    (∀ addr, addr ∉ dictKeys a → addr ∉ dictKeys b →
      addr ∉ compare_states a b) := by
  refine ⟨compare_states_sorted_lt a b, mem_compare_states a b, ?_, ?_, ?_⟩
  · intro addr r ha hb
    rw [mem_compare_states]
    refine ⟨Or.inr (mem_dictKeys_of_dictGet hb), ?_⟩
    rw [ha, hb]
    simp
  · intro addr r ha hb
    rw [mem_compare_states]
    refine ⟨Or.inl (mem_dictKeys_of_dictGet ha), ?_⟩
    rw [ha, hb]
    simp
  · intro addr hka hkb h
    rcases (mem_compare_states a b addr).mp h with ⟨hk, -⟩
    rcases hk with hk | hk
    · exact hka hk
    · exact hkb hk

/-- C3 witness: an address present only on side A is reported. -/
theorem C3_reconcile_exact_witness :
    "0xA" ∈ compare_states [("0xA", AccountRecord.ok 1 1)] [] :=
  (C3_reconcile_exact _ _).2.2.2.1 "0xA" (AccountRecord.ok 1 1) rfl rfl

/-- C5: when the two maps have the same key set and identical `Ok` records
at every key, the diff set is empty and the exit code computed from it is
`0`. -/
theorem C5_identical_ok_maps (a b : StateMap)
    (hkeys : ∀ addr, addr ∈ dictKeys a ↔ addr ∈ dictKeys b)
    (hok : ∀ addr, addr ∈ dictKeys a → ∃ bal n,
      dictGet a addr = some (AccountRecord.ok bal n) ∧
      dictGet b addr = some (AccountRecord.ok bal n)) :
    compare_states a b = [] ∧ exit_code (compare_states a b) = 0 := by
  have hnil : compare_states a b = [] := by
    rw [List.eq_nil_iff_forall_not_mem]
    intro addr h
    rcases (mem_compare_states a b addr).mp h with ⟨hk, hne⟩
    have hka : addr ∈ dictKeys a := by
      rcases hk with hk | hk
      · exact hk
      · exact (hkeys addr).mpr hk
    rcases hok addr hka with ⟨bal, n, ha, hb⟩
    rw [ha, hb] at hne
    exact hne rfl
  exact ⟨hnil, by rw [hnil]; rfl⟩

/-- C5 witness: two identical one-entry `Ok` maps. -/
theorem C5_identical_ok_maps_witness :
    compare_states [("0xA", AccountRecord.ok 100 5)]
        [("0xA", AccountRecord.ok 100 5)] = [] ∧
    exit_code (compare_states [("0xA", AccountRecord.ok 100 5)]
        [("0xA", AccountRecord.ok 100 5)]) = 0 :=
  C5_identical_ok_maps _ _ (fun _ => Iff.rfl)
    (fun addr h => by
      have : addr = "0xA" := by
        simpa [dictKeys_cons, dictKeys_nil] using h
      subst this
      exact ⟨100, 5, rfl, rfl⟩)

theorem checkAddresses_all_valid (isAddr : String → Bool)
    (toCheck : String → String) (l : List String)
    (h : ∀ a ∈ l, isAddr a = true) :
    checkAddresses isAddr toCheck l = .ok (l.map toCheck) := by
  induction l with
  | nil => rfl
  | cons a rest ih =>
    have ha : isAddr a = true := h a (List.mem_cons_self a rest)
    have hrest := ih fun x hx => h x (List.mem_cons_of_mem a hx)
    simp [checkAddresses, ha, hrest]

theorem checkAddresses_cases (isAddr : String → Bool)
    (toCheck : String → String) (l : List String) :
    (checkAddresses isAddr toCheck l = .ok (l.map toCheck) ∧
      ∀ a ∈ l, isAddr a = true) ∨
    ((∃ bad, checkAddresses isAddr toCheck l = .error bad) ∧
      ¬ ∀ a ∈ l, isAddr a = true) := by
  induction l with
  | nil => exact Or.inl ⟨rfl, by simp⟩
  | cons a rest ih =>
    by_cases ha : isAddr a = true
    · rcases ih with ⟨hok, hall⟩ | ⟨⟨bad, herr⟩, hnall⟩
      · refine Or.inl ⟨by simp [checkAddresses, ha, hok], ?_⟩
        intro x hx
        rcases List.mem_cons.mp hx with rfl | hx
        · exact ha
        · exact hall x hx
      · refine Or.inr ⟨⟨bad, by simp [checkAddresses, ha, herr]⟩, ?_⟩
        intro hall
        exact hnall fun x hx => hall x (List.mem_cons_of_mem a hx)
    · refine Or.inr ⟨⟨a, by simp [checkAddresses, ha]⟩, ?_⟩
      intro hall
      exact ha (hall a (List.mem_cons_self a rest))

theorem resultAddrs_append (xs ys : List OutputLine) :
    resultAddrs (xs ++ ys) = resultAddrs xs ++ resultAddrs ys :=
  List.filterMap_append xs ys _

theorem resultAddrs_fetching (l : List String) :
    resultAddrs (l.map OutputLine.fetching) = [] := by
  induction l with
  | nil => rfl
  | cons x xs ih => simp [resultAddrs, List.filterMap_cons] at ih ⊢

theorem resultAddrs_report (sa sb : StateMap) (l : List String) :
    resultAddrs (l.map (resultLineFor sa sb)) = l := by
  induction l with
  | nil => rfl
  | cons x xs ih =>
    simpa [resultAddrs, List.filterMap_cons, resultLineFor] using ih

theorem resultAddrs_summary (c : Bool) (n : Nat) :
    resultAddrs
      (if c then [OutputLine.allMatch] else [OutputLine.differCount n]) =
      [] := by
  cases c <;> rfl

theorem resultAddrs_json (c : Bool) (r1 r2 b1 b2 : String)
    (ad : List String) (sa sb : StateMap) (d : List String) (ts : String)
    (e : Int) (ok : Bool) :
    resultAddrs
      (if c then [OutputLine.jsonReport r1 r2 b1 b2 ad sa sb d ts e ok]
       else []) = [] := by
  cases c <;> rfl

theorem main_invalid_rpc_a (args : Args) (env : Env)
    (h : startsHttp args.rpc_a = false) :
    main args env = (1, [OutputLine.invalidRpc args.rpc_a]) := by
  unfold main
  simp [checkRpcs, h]

theorem main_invalid_rpc_b (args : Args) (env : Env)
    (hA : startsHttp args.rpc_a = true) (hB : startsHttp args.rpc_b = false) :
    main args env = (1, [OutputLine.invalidRpc args.rpc_b]) := by
  unfold main
  simp [checkRpcs, hA, hB]

theorem main_invalid_address (args : Args) (env : Env)
    (hA : startsHttp args.rpc_a = true) (hB : startsHttp args.rpc_b = true)
    (bad : String)
    (herr : checkAddresses env.is_address env.to_checksum args.address =
      .error bad) :
    main args env = (1, [OutputLine.invalidAddress bad]) := by
  unfold main
  have hr : checkRpcs args.rpc_a args.rpc_b = none := by
    simp [checkRpcs, hA, hB]
  rw [hr, herr]

theorem main_not_connected (args : Args) (env : Env)
    (hA : startsHttp args.rpc_a = true) (hB : startsHttp args.rpc_b = true)
    (haddr : ∀ a ∈ args.address, env.is_address a = true)
    (h : env.connected_a = false ∨ env.connected_b = false) :
    main args env = (1, [OutputLine.connectFailed]) := by
  unfold main
  have hr : checkRpcs args.rpc_a args.rpc_b = none := by
    simp [checkRpcs, hA, hB]
  rw [hr, checkAddresses_all_valid env.is_address env.to_checksum
    args.address haddr]
  rcases h with h | h <;> simp [h]

theorem snd_analyze_accounts (w3 : Client) (addresses : List String)
    (block : String) :
    (analyze_accounts w3 addresses block).2 =
      addresses.map OutputLine.fetching :=
  snd_analyzeGo w3 block addresses []

theorem resultAddrs_headerBlock (u1 u2 b1 b2 t : String) (n : Nat) :
    resultAddrs [OutputLine.header, OutputLine.rpcA u1, OutputLine.rpcB u2,
      OutputLine.blocks b1 b2, OutputLine.accounts n,
      OutputLine.timestamp t] = [] := rfl

theorem resultAddrs_resultsHeader :
    resultAddrs [OutputLine.resultsHeader] = [] := rfl

theorem fst_runComparison (args : Args) (env : Env) (addrs : List String) :
    (runComparison args env addrs).1 =
      exit_code (compare_states
        (analyze_accounts env.client_a addrs args.block_a).1
        (analyze_accounts env.client_b addrs args.block_b).1) := rfl

theorem resultAddrs_runComparison (args : Args) (env : Env)
    (addrs : List String) :
    resultAddrs (runComparison args env addrs).2 = addrs := by
  simp only [runComparison, resultAddrs_append, resultAddrs_headerBlock,
    resultAddrs_resultsHeader, snd_analyze_accounts, resultAddrs_fetching,
    resultAddrs_report, resultAddrs_summary, resultAddrs_json,
    List.append_nil, List.nil_append]

theorem main_success (args : Args) (env : Env)
    (hA : startsHttp args.rpc_a = true) (hB : startsHttp args.rpc_b = true)
    (haddr : ∀ a ∈ args.address, env.is_address a = true)
    (hca : env.connected_a = true) (hcb : env.connected_b = true) :
    main args env =
      runComparison args env (args.address.map env.to_checksum) := by
  unfold main
  have hr : checkRpcs args.rpc_a args.rpc_b = none := by
    simp [checkRpcs, hA, hB]
  rw [hr, checkAddresses_all_valid env.is_address env.to_checksum
    args.address haddr]
  simp [hca, hcb]

theorem main_success_parts (args : Args) (env : Env)
    (hA : startsHttp args.rpc_a = true) (hB : startsHttp args.rpc_b = true)
    (haddr : ∀ a ∈ args.address, env.is_address a = true)
    (hca : env.connected_a = true) (hcb : env.connected_b = true) :
    (main args env).1 =
      exit_code (compare_states
        (analyze_accounts env.client_a
          (args.address.map env.to_checksum) args.block_a).1
        (analyze_accounts env.client_b
          (args.address.map env.to_checksum) args.block_b).1) ∧
    resultAddrs (main args env).2 = args.address.map env.to_checksum := by
  rw [main_success args env hA hB haddr hca hcb]
  exact ⟨fst_runComparison args env _, resultAddrs_runComparison args env _⟩

/-- C4 counterexample: when the balance lookup raises, the exception leaves
the `try` block at once, so the transaction-count lookup is never attempted:
the attempted-call list is `[.balance]` and does not contain `.txCount`.
The stored record is the stringified balance failure alone. -/
theorem C4_counterexample :
    (fetchPair failBalClient "0xA" "latest").2 = [SubCall.balance] ∧
    SubCall.txCount ∉ (fetchPair failBalClient "0xA" "latest").2 ∧
    (fetchPair failBalClient "0xA" "latest").1 =
      AccountRecord.err "balance boom" :=
  ⟨rfl, by decide, rfl⟩

/-- C4 (amended): the balance lookup is attempted first; if it fails the
transaction-count lookup is not attempted and the address gets an `Err`
record with the balance failure message.  If the balance lookup succeeds
and the transaction-count lookup fails, both were attempted and the address
gets an `Err` record with the transaction-count failure message.  In every
failure case exactly one `Err` record is produced for the address. -/
theorem C4_fetch_error_paths (w3 : Client) (addr block : String) :
    (∀ e, w3.get_balance addr block = Except.error e →
      fetchPair w3 addr block = (AccountRecord.err e, [SubCall.balance])) ∧
    (∀ bal e, w3.get_balance addr block = Except.ok bal →
      w3.get_transaction_count addr block = Except.error e →
      fetchPair w3 addr block =
        (AccountRecord.err e, [SubCall.balance, SubCall.txCount])) ∧
    (∀ bal n, w3.get_balance addr block = Except.ok bal →
      w3.get_transaction_count addr block = Except.ok n →
      fetchPair w3 addr block =
        (AccountRecord.ok bal n, [SubCall.balance, SubCall.txCount])) := by
  refine ⟨?_, ?_, ?_⟩
  · intro e he
    simp [fetchPair, he]
  · intro bal e hb ht
    simp [fetchPair, hb, ht]
  · intro bal n hb ht
    simp [fetchPair, hb, ht]

/-- C4 witness: a failing balance lookup short-circuits the fetch. -/
theorem C4_fetch_error_paths_witness :
    fetchPair failBalClient "0xA" "latest" =
      (AccountRecord.err "balance boom", [SubCall.balance]) :=
  (C4_fetch_error_paths failBalClient "0xA" "latest").1 "balance boom" rfl

/-- C7: a lookup failure is isolated to its own address: every address of
the input list receives exactly the record its own fetch produces,
whatever happens at other addresses, and an address whose balance or
transaction-count lookup fails receives an `Err` record with that failure
message. -/
theorem C7_failure_isolated (w3 : Client) (addresses : List String)
    (block : String) :
    (∀ addr, addr ∈ addresses →
      dictGet (analyze_accounts w3 addresses block).1 addr =
        some (fetchRecord w3 addr block)) ∧
    (∀ addr e, addr ∈ addresses →
      w3.get_balance addr block = Except.error e →
      dictGet (analyze_accounts w3 addresses block).1 addr =
        some (AccountRecord.err e)) ∧
    (∀ addr bal e, addr ∈ addresses →
      w3.get_balance addr block = Except.ok bal →
      w3.get_transaction_count addr block = Except.error e →
      dictGet (analyze_accounts w3 addresses block).1 addr =
        some (AccountRecord.err e)) := by
  refine ⟨?_, ?_, ?_⟩
  · intro addr h
    rw [dictGet_analyze_accounts, if_pos h]
  · intro addr e h he
    rw [dictGet_analyze_accounts, if_pos h]
    simp [fetchRecord, fetchPair, he]
  · intro addr bal e h hb ht
    rw [dictGet_analyze_accounts, if_pos h]
    simp [fetchRecord, fetchPair, hb, ht]

/-- C7 witness: with a client that fails only at `"0xB"`, the failing
address gets an `Err` record and a later address still gets its own
record. -/
theorem C7_failure_isolated_witness :
    dictGet (analyze_accounts mixedClient ["0xA", "0xB", "0xC"] "latest").1
        "0xB" = some (AccountRecord.err "down") ∧
    dictGet (analyze_accounts mixedClient ["0xA", "0xB", "0xC"] "latest").1
        "0xC" = some (fetchRecord mixedClient "0xC" "latest") :=
  ⟨(C7_failure_isolated mixedClient ["0xA", "0xB", "0xC"] "latest").2.1
      "0xB" "down" (by decide) rfl,
   (C7_failure_isolated mixedClient ["0xA", "0xB", "0xC"] "latest").1
      "0xC" (by decide)⟩

/-- C10 counterexample: with the duplicate input list `["0xA", "0xA"]` the
result dict has a single entry, so its key list is not the input list —
there is not one entry per input-list element. -/
theorem C10_counterexample :
    dictKeys (analyze_accounts trivialClient ["0xA", "0xA"] "latest").1 =
      ["0xA"] ∧
    dictKeys (analyze_accounts trivialClient ["0xA", "0xA"] "latest").1 ≠
      ["0xA", "0xA"] := by
  refine ⟨by decide, by decide⟩

/-- C10 (amended): the fetcher's result map has one entry per distinct
input address, keyed in first-occurrence input order — equal to the input
list whenever it has no duplicates — and every stored value is either an
`Ok` record (balance and transaction count) or an `Err` record (message). -/
theorem C10_fetch_map_shape (w3 : Client) (addresses : List String)
    (block : String) :
    dictKeys (analyze_accounts w3 addresses block).1 = pyDedup addresses ∧
    (addresses.Nodup →
      dictKeys (analyze_accounts w3 addresses block).1 = addresses) ∧
    (∀ addr, addr ∈ dictKeys (analyze_accounts w3 addresses block).1 ↔
      addr ∈ addresses) ∧
    (∀ addr r,
      dictGet (analyze_accounts w3 addresses block).1 addr = some r →
      (∃ bal n, r = AccountRecord.ok bal n) ∨
        ∃ m, r = AccountRecord.err m) := by
  refine ⟨dictKeys_analyze_accounts w3 addresses block, ?_, ?_, ?_⟩
  · intro h
    rw [dictKeys_analyze_accounts, pyDedup_eq_self h]
  · intro addr
    rw [dictKeys_analyze_accounts, mem_pyDedup]
  · intro addr r _
    cases r with
    | ok bal n => exact Or.inl ⟨bal, n, rfl⟩
    | err m => exact Or.inr ⟨m, rfl⟩

/-- C10 witness: on a duplicate-free list the key list is the input list. -/
theorem C10_fetch_map_shape_witness :
    dictKeys (analyze_accounts trivialClient ["0xA", "0xB"] "latest").1 =
      ["0xA", "0xB"] :=
  (C10_fetch_map_shape trivialClient ["0xA", "0xB"] "latest").2.1 (by decide)

theorem exit_code_eq (d : List String) :
    exit_code d = if d = [] then 0 else 2 := by
  cases d <;> rfl

/-- C6: the exit code is always one of 0, 1, 2; it is 1 exactly when a
pre-flight check fails (URL scheme, address validation, or a connectivity
probe), 0 exactly when pre-flight passes and the diff set is empty, and 2
exactly when pre-flight passes and the diff set is non-empty. -/
theorem C6_exit_codes (args : Args) (env : Env) :
    ((main args env).1 = 0 ∨ (main args env).1 = 1 ∨
      (main args env).1 = 2) ∧
    ((main args env).1 = 1 ↔
      ¬ (startsHttp args.rpc_a = true ∧ startsHttp args.rpc_b = true ∧
         (∀ a ∈ args.address, env.is_address a = true) ∧
         env.connected_a = true ∧ env.connected_b = true)) ∧
    ((main args env).1 = 0 ↔
      ((startsHttp args.rpc_a = true ∧ startsHttp args.rpc_b = true ∧
         (∀ a ∈ args.address, env.is_address a = true) ∧
         env.connected_a = true ∧ env.connected_b = true) ∧
       compare_states
         (analyze_accounts env.client_a
           (args.address.map env.to_checksum) args.block_a).1
         (analyze_accounts env.client_b
           (args.address.map env.to_checksum) args.block_b).1 = [])) ∧
    ((main args env).1 = 2 ↔
      ((startsHttp args.rpc_a = true ∧ startsHttp args.rpc_b = true ∧
         (∀ a ∈ args.address, env.is_address a = true) ∧
         env.connected_a = true ∧ env.connected_b = true) ∧
       compare_states
         (analyze_accounts env.client_a
           (args.address.map env.to_checksum) args.block_a).1
         (analyze_accounts env.client_b
           (args.address.map env.to_checksum) args.block_b).1 ≠ [])) := by
  by_cases hA : startsHttp args.rpc_a = true
  · by_cases hB : startsHttp args.rpc_b = true
    · rcases checkAddresses_cases env.is_address env.to_checksum
        args.address with ⟨hok, hall⟩ | ⟨⟨bad, herr⟩, hnall⟩
      · by_cases hca : env.connected_a = true
        · by_cases hcb : env.connected_b = true
          · obtain ⟨h1, -⟩ := main_success_parts args env hA hB hall hca hcb
            rw [h1, exit_code_eq]
            by_cases hd : compare_states
                (analyze_accounts env.client_a
                  (args.address.map env.to_checksum) args.block_a).1
                (analyze_accounts env.client_b
                  (args.address.map env.to_checksum) args.block_b).1 = []
            · simp [hd, hA, hB, hca, hcb]
              exact hall
            · simp [hd, hA, hB, hca, hcb]
              exact hall
          · have hcb' : env.connected_b = false := by
              simpa using hcb
            rw [main_not_connected args env hA hB hall (Or.inr hcb')]
            simp [hA, hB, hall, hca, hcb]
        · have hca' : env.connected_a = false := by
            simpa using hca
          rw [main_not_connected args env hA hB hall (Or.inl hca')]
          simp [hA, hB, hall, hca]
      · rw [main_invalid_address args env hA hB bad herr]
        simp [hA, hB, hnall]
    · have hB' : startsHttp args.rpc_b = false := by
        simpa using hB
      rw [main_invalid_rpc_b args env hA hB']
      simp [hA, hB]
  · have hA' : startsHttp args.rpc_a = false := by
      simpa using hA
    rw [main_invalid_rpc_a args env hA']
    simp [hA]

/-- C8 counterexample: with `--rpc-a "ftp://x"` the process exits with
code 1 but its output is not empty — it prints the invalid-URL
diagnostic line, so "produces no output" fails as stated. -/
theorem C8_counterexample :
    (main argsFtp envOk).1 = 1 ∧ (main argsFtp envOk).2 ≠ [] :=
  ⟨rfl, by decide⟩

/-- C8 (amended): for every configured RPC URL that does not start with
`http://` or `https://`, the run aborts with exit code 1 before any
network activity (the result is the same for every environment), and the
only output is the single invalid-URL diagnostic line for the first bad
URL — not an empty output. -/
theorem C8_bad_url_aborts (args : Args) (env : Env) :
    (startsHttp args.rpc_a = false →
      main args env = (1, [OutputLine.invalidRpc args.rpc_a])) ∧
    (startsHttp args.rpc_a = true → startsHttp args.rpc_b = false →
      main args env = (1, [OutputLine.invalidRpc args.rpc_b])) :=
  ⟨main_invalid_rpc_a args env, main_invalid_rpc_b args env⟩

/-- C8 witness: the `ftp://x` scenario, in an arbitrary environment. -/
theorem C8_bad_url_aborts_witness :
    main argsFtp envOk = (1, [OutputLine.invalidRpc "ftp://x"]) :=
  (C8_bad_url_aborts argsFtp envOk).1 rfl

/-- C9: when the run reaches the report, the text report has exactly one
result line per input address and the addresses of those lines are the
input addresses (in checksummed form) in the original input order. -/
theorem C9_report_order (args : Args) (env : Env)
    (hA : startsHttp args.rpc_a = true) (hB : startsHttp args.rpc_b = true)
    (haddr : ∀ a ∈ args.address, env.is_address a = true)
    (hca : env.connected_a = true) (hcb : env.connected_b = true) :
    resultAddrs (main args env).2 = args.address.map env.to_checksum ∧
    (resultAddrs (main args env).2).length = args.address.length := by
  obtain ⟨-, h2⟩ := main_success_parts args env hA hB haddr hca hcb
  exact ⟨h2, by rw [h2, List.length_map]⟩

/-- C9 witness: a two-address run reports exactly those two addresses in
input order. -/
theorem C9_report_order_witness :
    resultAddrs (main argsOk envOk).2 = ["0xA", "0xB"] :=
  ((C9_report_order argsOk envOk rfl rfl (by decide) rfl rfl).1).trans rfl

end ZK
